import Mathlib

/-
Verification of the vehicle-part module (src/vehicle_part.cpp) of the
Cataclysm-DDA fork.  The embedding below translates the data model and the
operations of the source file into Lean.  External collaborators (the generic
item model, the NPC registry, the part-type catalog) are modelled from the
specification as explicit structures and parameters; every operation of the
module itself is translated line by line from the source.
-/

namespace Veh

/-- Physical phase of an item type, as used by the liquid checks of the
source (the source only ever compares against LIQUID). -/
inductive Phase where
  | solid : Phase
  | liquid : Phase
  | gas : Phase
  | plasma : Phase
deriving DecidableEq, Repr

/-- Modelled from the spec: the immutable item-type record resolved by
item::find_type, restricted to the fields this module reads (phase for the
liquid checks, unit volume and stack_size for tank capacity arithmetic, and
the per-unit fuel energy used by consume_energy). -/
structure itype where
  phase : Phase
  volume : Int
  stack_size : Int
  fuel_energy : ℚ
deriving DecidableEq, Repr

/-- The item-type catalog (item::find_type), a total map from type ids to
type records. -/
def Catalog : Type := String → itype

/-- Modelled from the spec: one stack held in the contents list of the
embedded item, restricted to the fields this module reads (type id and
charge count). -/
structure content_item where
  typeId : String
  charges : Int
deriving DecidableEq, Repr

/-- Modelled from the spec: the embedded generic item (base) of a vehicle
part, restricted to the fields and capability queries this module reads.
Damage values are modelled as rationals (the source mixes int and double
arithmetic on them); magazine/gun delegate queries are abstract fields. -/
structure item where
  typeId : String
  damage : ℚ
  max_damage : ℚ
  contents : List content_item
  is_watertight_container : Bool
  is_magazine : Bool
  ammo_type : String
  is_gun : Bool
  container_capacity : Int
  mag_ammo_current : String
  mag_ammo_capacity : Int
  mag_ammo_remaining : Int
  is_reloadable_with : String → Bool

/-- The immutable part-type descriptor (vpart_info) with the fields this
module reads: nominal durability, the pinned fuel type, and the static flag
set queried through has_flag. -/
structure vpart_info where
  durability : Int
  fuel_type : String
  flags : List String
deriving DecidableEq, Repr

/-- Flag query on a descriptor (vpart_info::has_flag). -/
def vpart_info.has_flag (vp : vpart_info) (f : String) : Bool :=
  vp.flags.contains f

/-- The vehicle part itself: descriptor, embedded item, crew assignment and
lifecycle flag.  The descriptor is stored directly (the source resolves it
through a lazily cached id lookup; the cache is derived state). -/
structure vehicle_part where
  info : vpart_info
  base : item
  crew_id : Int
  removed : Bool

/-- A map position, threaded through ammo_consume for the delegate call
only (the liquid path ignores it). -/
structure tripoint where
  x : Int
  y : Int
  z : Int
deriving DecidableEq, Repr

/-- Modelled from the spec: the external item model operations that
battery/reactor/turret paths delegate to (item::ammo_set and
item::ammo_consume); abstract to this module. -/
structure MagOps where
  set : item → String → Int → item
  consume : item → Int → tripoint → item × Int

/-- C++ integer division truncates toward zero; Int.div is the matching
Lean operation. -/
def cdiv (a b : Int) : Int := Int.tdiv a b

/-- Conversion from a double to an int in C++ truncates toward zero. -/
def truncInt (q : ℚ) : Int := if q < 0 then ⌈q⌉ else ⌊q⌋

/-- units::legacy_volume_factor, 250 ml. -/
def legacy_volume_factor : Int := 250

/-- units::from_milliliter; volumes are carried in milliliters. -/
def from_milliliter (n : Int) : Int := n

namespace vehicle_part

/-- vehicle_part::is_engine. -/
def is_engine (p : vehicle_part) : Bool :=
  p.info.has_flag "ENGINE"

/-- vehicle_part::is_tank. -/
def is_tank (p : vehicle_part) : Bool :=
  p.base.is_watertight_container

/-- vehicle_part::is_battery. -/
def is_battery (p : vehicle_part) : Bool :=
  p.base.is_magazine && p.base.ammo_type == "battery"

/-- vehicle_part::is_reactor. -/
def is_reactor (p : vehicle_part) : Bool :=
  p.info.has_flag "REACTOR"

/-- vehicle_part::is_turret. -/
def is_turret (p : vehicle_part) : Bool :=
  p.base.is_gun

/-- vehicle_part::is_seat. -/
def is_seat (p : vehicle_part) : Bool :=
  p.info.has_flag "SEAT"

/-- vehicle_part::is_broken: damage at or past max_damage. -/
def is_broken (p : vehicle_part) : Bool :=
  decide (p.base.max_damage ≤ p.base.damage)

/-- vehicle_part::health_percent. -/
def health_percent (p : vehicle_part) : ℚ :=
  1 - p.base.damage / p.base.max_damage

/-- vehicle_part::damage_percent. -/
def damage_percent (p : vehicle_part) : ℚ :=
  p.base.damage / p.base.max_damage

/-- vehicle_part::hp: durability times health percentage; the implicit
double-to-int conversion of the return truncates toward zero. -/
def hp (p : vehicle_part) : Int :=
  truncInt ((p.info.durability : ℚ) * health_percent p)

/-- vehicle_part::ammo_current, with the role checks in source order:
battery, then reactor/turret, then tank with non-empty contents (which
reads the FRONT stack of the contents list), then engine. -/
def ammo_current (p : vehicle_part) : String :=
  if is_battery p then "battery"
  else if is_reactor p || is_turret p then p.base.mag_ammo_current
  else
    match p.base.contents with
    | c :: _ =>
      if is_tank p then c.typeId
      else if is_engine p then
        (if p.info.fuel_type ≠ "muscle" then p.info.fuel_type else "null")
      else "null"
    | [] =>
      if is_engine p then
        (if p.info.fuel_type ≠ "muscle" then p.info.fuel_type else "null")
      else "null"

/-- vehicle_part::ammo_capacity. -/
def ammo_capacity (cat : Catalog) (p : vehicle_part) : Int :=
  if is_battery p || is_reactor p || is_turret p then p.base.mag_ammo_capacity
  else if p.base.is_watertight_container then
    cdiv p.base.container_capacity (max (cat (ammo_current p)).volume (from_milliliter 1))
  else 0

/-- vehicle_part::ammo_remaining: for a watertight container the charges of
the BACK stack of the contents list, 0 when empty. -/
def ammo_remaining (p : vehicle_part) : Int :=
  if is_battery p || is_reactor p || is_turret p then p.base.mag_ammo_remaining
  else if p.base.is_watertight_container then
    match p.base.contents.getLast? with
    | none => 0
    | some c => c.charges
  else 0

/-- The part with the contents of its embedded item cleared
(base.contents.clear()). -/
def clear_contents (p : vehicle_part) : vehicle_part :=
  { p with base := { p.base with contents := [] } }

/-- The stack-size-adjusted unit volume computed by the tank branch of
ammo_set (line 213 of the source). -/
def tank_stack (cat : Catalog) (ammo : String) : Int :=
  cdiv legacy_volume_factor (max (cat ammo).stack_size 1)

/-- The capacity-derived charge limit computed by the tank branch of
ammo_set (line 214 of the source); ammo_capacity is evaluated after the
contents have been cleared. -/
def tank_limit (cat : Catalog) (p : vehicle_part) (ammo : String) : Int :=
  cdiv (from_milliliter (ammo_capacity cat (clear_contents p))) (tank_stack cat ammo)

/-- vehicle_part::ammo_set.  Turret and battery/reactor paths delegate to
the item model; the tank path clears the contents, inserts one liquid stack
capped at the capacity-derived limit, and returns the REQUESTED quantity.
All other roles return the -1 sentinel. -/
def ammo_set (cat : Catalog) (mag : MagOps) (p : vehicle_part) (ammo : String) (qty : Int) :
    vehicle_part × Int :=
  if is_turret p then
    let b := mag.set p.base ammo qty
    ({ p with base := b }, b.mag_ammo_remaining)
  else if is_battery p || is_reactor p then
    let b := mag.set p.base ammo (if 0 ≤ qty then qty else ammo_capacity cat p)
    ({ p with base := b }, b.mag_ammo_remaining)
  else if is_tank p ∧ (cat ammo).phase = Phase.liquid then
    let p1 := clear_contents p
    let limit := tank_limit cat p ammo
    ({ p1 with base := { p1.base with
        contents := [⟨ammo, if 0 ≤ qty then min qty limit else limit⟩] } }, qty)
  else (p, -1)

/-- vehicle_part::ammo_consume.  Battery/reactor delegate to the item model;
otherwise the consumed amount is min(ammo_remaining(), qty), and when the
part is a watertight container with non-empty contents the BACK stack loses
that many charges, the whole contents being cleared when the stack reaches
exactly zero charges. -/
def ammo_consume (mag : MagOps) (p : vehicle_part) (qty : Int) (pos : tripoint) :
    vehicle_part × Int :=
  if is_battery p || is_reactor p then
    let r := mag.consume p.base qty pos
    ({ p with base := r.1 }, r.2)
  else
    let res := min (ammo_remaining p) qty
    if p.base.is_watertight_container then
      match p.base.contents.getLast? with
      | none => (p, res)
      | some c =>
        let c2 : content_item := { c with charges := c.charges - res }
        if c2.charges = 0 then (clear_contents p, res)
        else ({ p with base := { p.base with
            contents := p.base.contents.dropLast ++ [c2] } }, res)
    else (p, res)

/-- vehicle_part::consume_energy: applicable only when the contents are
non-empty and the role is battery, reactor or watertight container; the
BACK content stack must match the requested fuel type; required charge
units are the ceiling of energy over per-unit energy; a shortfall consumes
everything and clears the contents. -/
def consume_energy (cat : Catalog) (p : vehicle_part) (ftype : String) (energy : ℚ) :
    vehicle_part × ℚ :=
  match p.base.contents.getLast? with
  | none => (p, 0)
  | some fuel =>
    if ¬(is_battery p || is_reactor p || p.base.is_watertight_container) then (p, 0)
    else if fuel.typeId ≠ ftype then (p, 0)
    else
      let energy_per_unit := (cat fuel.typeId).fuel_energy
      let charges_to_use : Int := ⌈energy / energy_per_unit⌉
      if fuel.charges < charges_to_use then
        (clear_contents p, (fuel.charges : ℚ) * energy_per_unit)
      else
        ({ p with base := { p.base with
            contents := p.base.contents.dropLast ++
              [{ fuel with charges := fuel.charges - charges_to_use }] } },
          (charges_to_use : ℚ) * energy_per_unit)

/-- vehicle_part::can_reload, with the source order of checks: broken or
non-positive capacity reject; reactor delegates; tank checks phase and
mixing for a concrete candidate, then the pinned fuel type, then requires
remaining strictly below capacity; every other role rejects. -/
def can_reload (cat : Catalog) (p : vehicle_part) (obj : String) : Bool :=
  if is_broken p || decide (ammo_capacity cat p ≤ 0) then false
  else if is_reactor p then p.base.is_reloadable_with obj
  else if is_tank p then
    if obj ≠ "" ∧ (cat obj).phase ≠ Phase.liquid then false
    else if obj ≠ "" ∧ ammo_current p ≠ "null" ∧ ammo_current p ≠ obj then false
    else if p.info.fuel_type ≠ "null" ∧ p.info.fuel_type ≠ obj then false
    else decide (ammo_remaining p < ammo_capacity cat p)
  else false

end vehicle_part

/-- A non-player character, restricted to the queries this module makes
(id, dead-state, friendliness). -/
structure npc where
  getID : Int
  is_dead_state : Bool
  is_friend : Bool
deriving DecidableEq, Repr

/-- Modelled from the spec: the entity registry lookup
critter_by_id on the game singleton, an optional map from ids to NPCs. -/
def Registry : Type := Int → Option npc

namespace vehicle_part

/-- vehicle_part::crew: read-time validation; the assigned NPC is returned
only when the part is not broken, an id is set, the registry resolves it,
and the NPC is still friendly. -/
def crew (reg : Registry) (p : vehicle_part) : Option npc :=
  if is_broken p || decide (p.crew_id < 0) then none
  else
    match reg p.crew_id with
    | none => none
    | some res => if res.is_friend then some res else none

/-- vehicle_part::set_crew: fails with no state change when the NPC is dead
or unfriendly, or the part is broken or neither seat nor turret; otherwise
records the NPC id. -/
def set_crew (p : vehicle_part) (who : npc) : vehicle_part × Bool :=
  if who.is_dead_state || !who.is_friend then (p, false)
  else if is_broken p || (!is_seat p && !is_turret p) then (p, false)
  else ({ p with crew_id := who.getID }, true)

/-- vehicle_part::unset_crew. -/
def unset_crew (p : vehicle_part) : vehicle_part :=
  { p with crew_id := -1 }

end vehicle_part

open vehicle_part

/-- vehicle::set_hp: qty equal to durability resets damage to 0; qty 0 sets
damage to max_damage; otherwise damage becomes
max_damage - qty * (max_damage / durability).  The set_damage operation of
the embedded item is modelled from the spec as storing the given value. -/
def set_hp (p : vehicle_part) (qty : Int) : vehicle_part :=
  if qty = p.info.durability then
    { p with base := { p.base with damage := 0 } }
  else if qty = 0 then
    { p with base := { p.base with damage := p.base.max_damage } }
  else
    { p with base := { p.base with damage :=
        p.base.max_damage - (qty : ℚ) * (p.base.max_damage / (p.info.durability : ℚ)) } }

/-- The body of the loop of vehicle::assign_seat applied to one part other
than the assigned one: any other seat whose crew resolves to the same NPC
is unassigned. -/
def seat_scan_step (reg : Registry) (who : npc) (e : vehicle_part) : vehicle_part :=
  if is_seat e then
    match crew reg e with
    | some n => if n.getID = who.getID then unset_crew e else e
    | none => e
  else e

/-- The scan loop of vehicle::assign_seat over the parts list, skipping the
part at index idx (the C++ loop skips the assigned part by address). -/
def seat_scan (reg : Registry) (who : npc) (idx : Nat) :
    Nat → List vehicle_part → List vehicle_part
  | _, [] => []
  | i, e :: rest =>
    (if i = idx then e else seat_scan_step reg who e) :: seat_scan reg who idx (i + 1) rest

/-- vehicle::assign_seat on the parts list, the assigned part given by
index: fails with no state change unless the part is a seat and set_crew
succeeds; on success every other seat holding the same NPC is unassigned. -/
def assign_seat (reg : Registry) (parts : List vehicle_part) (idx : Nat) (who : npc) :
    List vehicle_part × Bool :=
  match parts.get? idx with
  | none => (parts, false)
  | some pt =>
    if !is_seat pt then (parts, false)
    else
      match set_crew pt who with
      | (_, false) => (parts, false)
      | (pt2, true) => (seat_scan reg who idx 0 (parts.set idx pt2), true)

/- Concrete instances used by counterexamples and witnesses. -/

/-- A liquid item type for clean water. -/
def water_type : itype := ⟨Phase.liquid, 1, 200, 1⟩

/-- A liquid item type for gasoline. -/
def gasoline_type : itype := ⟨Phase.liquid, 1, 100, 34 / 10⟩

/-- A solid item type, the catalog default. -/
def solid_type : itype := ⟨Phase.solid, 250, 1, 0⟩

/-- A concrete catalog resolving the two liquids and defaulting to a solid
type. -/
def exCat : Catalog := fun s =>
  if s = "water_clean" then water_type
  else if s = "gasoline" then gasoline_type
  else solid_type

/-- A trivial delegate model for the magazine paths (never exercised by the
tank-path theorems). -/
def idMag : MagOps := ⟨fun b _ _ => b, fun b _ _ => (b, 0)⟩

/-- A watertight tank base item holding the given contents. -/
def tank_base (cs : List content_item) : item :=
  { typeId := "metal_tank", damage := 0, max_damage := 4, contents := cs,
    is_watertight_container := true, is_magazine := false, ammo_type := "",
    is_gun := false, container_capacity := 60000,
    mag_ammo_current := "null", mag_ammo_capacity := 0, mag_ammo_remaining := 0,
    is_reloadable_with := fun _ => false }

/-- A descriptor for a plain tank part. -/
def tank_info : vpart_info := ⟨400, "null", []⟩

/-- A tank-role vehicle part holding the given contents. -/
def exTank (cs : List content_item) : vehicle_part :=
  { info := tank_info, base := tank_base cs, crew_id := -1, removed := false }

/-- A broken tank part: its base damage equals the maximum damage. -/
def exBrokenTank : vehicle_part :=
  { info := tank_info, base := { tank_base [] with damage := 4 },
    crew_id := -1, removed := false }

/-- A part with durability 3 whose base sits at damage 1 of max 2; its
health percentage is one half. -/
def exDamaged : vehicle_part :=
  { info := ⟨3, "null", []⟩,
    base := { tank_base [] with damage := 1, max_damage := 2 },
    crew_id := -1, removed := false }

/-- A gun base item (turret role): not watertight, not a magazine, with 30
rounds remaining through the delegate query. -/
def turret_base : item :=
  { typeId := "mounted_gun", damage := 0, max_damage := 4, contents := [],
    is_watertight_container := false, is_magazine := false, ammo_type := "",
    is_gun := true, container_capacity := 0,
    mag_ammo_current := "rifle_ball", mag_ammo_capacity := 60, mag_ammo_remaining := 30,
    is_reloadable_with := fun _ => false }

/-- A turret-role vehicle part. -/
def exTurret : vehicle_part :=
  { info := ⟨200, "null", []⟩, base := turret_base, crew_id := -1, removed := false }

/-- A seat descriptor. -/
def seat_info : vpart_info := ⟨300, "null", ["SEAT"]⟩

/-- A seat base item: not watertight, not a magazine, not a gun. -/
def seat_base : item := { tank_base [] with is_watertight_container := false }

/-- A seat-role vehicle part with no crew assigned. -/
def exSeat : vehicle_part :=
  { info := seat_info, base := seat_base, crew_id := -1, removed := false }

/-- A live friendly NPC with id 7. -/
def exNpc : npc := ⟨7, false, true⟩

/-- A registry resolving id 7 to the example NPC. -/
def exReg : Registry := fun i => if i = 7 then some exNpc else none

/-- An origin position for the delegate signature of ammo_consume. -/
def exPos : tripoint := ⟨0, 0, 0⟩

/- Theorems. -/

/-- Helper: ammo_current of a tank-role part with non-empty contents is the
type id of the front stack. -/
theorem ammo_current_cons (p : vehicle_part) (c : content_item)
    (cs : List content_item)
    (hb : is_battery p = false) (hr : is_reactor p = false)
    (ht : is_turret p = false) (htk : is_tank p = true)
    (hc : p.base.contents = c :: cs) :
    ammo_current p = c.typeId := by
  simp [ammo_current, hb, hr, ht, htk, hc]

/-- Helper: replacing the contents of the base does not change the role
predicates or the broken state. -/
theorem roles_contents_update (p : vehicle_part) (l : List content_item) :
    is_battery { p with base := { p.base with contents := l } } = is_battery p ∧
    is_reactor { p with base := { p.base with contents := l } } = is_reactor p ∧
    is_turret { p with base := { p.base with contents := l } } = is_turret p ∧
    is_tank { p with base := { p.base with contents := l } } = is_tank p ∧
    is_broken { p with base := { p.base with contents := l } } = is_broken p :=
  ⟨rfl, rfl, rfl, rfl, rfl⟩

/-- Helper: ammo_remaining of a non-battery/reactor/turret watertight part
is the charge count of the back stack of its contents, 0 when empty. -/
theorem ammo_remaining_of_contents (q : vehicle_part)
    (hb : is_battery q = false) (hr : is_reactor q = false)
    (ht : is_turret q = false) (hw : q.base.is_watertight_container = true) :
    ammo_remaining q
      = (match q.base.contents.getLast? with | none => 0 | some c => c.charges) := by
  simp [ammo_remaining, hb, hr, ht, hw]

/-- Helper: ammo_remaining of a non-battery/reactor/turret watertight part
whose contents are a single stack is the charge count of that stack. -/
theorem ammo_remaining_single (p : vehicle_part) (st : content_item)
    (hb : is_battery p = false) (hr : is_reactor p = false)
    (ht : is_turret p = false) (hw : p.base.is_watertight_container = true) :
    ammo_remaining { p with base := { p.base with contents := [st] } } = st.charges := by
  have h : ammo_remaining { p with base := { p.base with contents := [st] } }
      = (match ({ p with base := { p.base with
            contents := [st] } }).base.contents.getLast? with
         | none => 0 | some c => c.charges) :=
    ammo_remaining_of_contents _ hb hr ht hw
  exact h.trans rfl

/-- Claim C3: for a tank-role part and a liquid ammo type, ammo_set clears
the contents, inserts one stack capped at the capacity-derived limit (the
full limit when qty is negative), returns the requested quantity itself,
and a subsequent ammo_remaining never exceeds the capacity-derived
limit. -/
theorem ammo_set_tank_spec (cat : Catalog) (mag : MagOps) (p : vehicle_part)
    (ammo : String) (qty : Int)
    (ht : is_turret p = false) (hb : is_battery p = false) (hr : is_reactor p = false)
    (htk : is_tank p = true) (hl : (cat ammo).phase = Phase.liquid) :
    (ammo_set cat mag p ammo qty).1.base.contents
        = [⟨ammo, if 0 ≤ qty then min qty (tank_limit cat p ammo)
                  else tank_limit cat p ammo⟩] ∧
    (ammo_set cat mag p ammo qty).2 = qty ∧
    ammo_remaining (ammo_set cat mag p ammo qty).1 ≤ tank_limit cat p ammo := by
  have hset : ammo_set cat mag p ammo qty
      = ({ p with base := { p.base with contents :=
            [⟨ammo, if 0 ≤ qty then min qty (tank_limit cat p ammo)
                    else tank_limit cat p ammo⟩] } }, qty) := by
    unfold ammo_set
    rw [if_neg (by simp [ht]), if_neg (by simp [hb, hr]), if_pos ⟨htk, hl⟩]
    rfl
  have hw : p.base.is_watertight_container = true := htk
  refine ⟨by rw [hset], by rw [hset], ?_⟩
  rw [hset]
  rw [ammo_remaining_single p _ hb hr ht hw]
  by_cases hq : 0 ≤ qty
  · simp [hq, min_le_right]
  · simp [hq]

/-- Witness for claim C3: setting 500 charges of clean water on an empty
240-unit tank stores the clamped amount and returns 500. -/
theorem ammo_set_tank_spec_witness :
    (ammo_set exCat idMag (exTank []) "water_clean" 500).1.base.contents
        = [⟨"water_clean", if (0 : Int) ≤ 500
              then min 500 (tank_limit exCat (exTank []) "water_clean")
              else tank_limit exCat (exTank []) "water_clean"⟩] ∧
    (ammo_set exCat idMag (exTank []) "water_clean" 500).2 = 500 ∧
    ammo_remaining (ammo_set exCat idMag (exTank []) "water_clean" 500).1
        ≤ tank_limit exCat (exTank []) "water_clean" :=
  ammo_set_tank_spec exCat idMag (exTank []) "water_clean" 500
    (by decide) (by decide) (by decide) (by decide) (by decide)

/-- Claim C4: for a tank-role part and non-negative qty, ammo_consume
returns min(ammo_remaining, qty), never more than was remaining; the
remaining amount drops by exactly the consumed amount; consuming all
remaining leaves ammo_remaining at 0; and a back stack whose charges reach
zero is removed from the contents entirely. -/
theorem ammo_consume_tank_spec (mag : MagOps) (p : vehicle_part) (qty : Int)
    (pos : tripoint)
    (hb : is_battery p = false) (hr : is_reactor p = false) (ht : is_turret p = false)
    (htk : is_tank p = true) (hq : 0 ≤ qty) :
    (ammo_consume mag p qty pos).2 = min (ammo_remaining p) qty ∧
    (ammo_consume mag p qty pos).2 ≤ ammo_remaining p ∧
    ammo_remaining (ammo_consume mag p qty pos).1
      = ammo_remaining p - min (ammo_remaining p) qty ∧
    (ammo_remaining p ≤ qty → ammo_remaining (ammo_consume mag p qty pos).1 = 0) ∧
    (∀ c, p.base.contents.getLast? = some c →
        c.charges - min (ammo_remaining p) qty = 0 →
        (ammo_consume mag p qty pos).1.base.contents = []) := by
  have hw : p.base.is_watertight_container = true := htk
  have hmain : (ammo_consume mag p qty pos).2 = min (ammo_remaining p) qty ∧
      ammo_remaining (ammo_consume mag p qty pos).1
        = ammo_remaining p - min (ammo_remaining p) qty ∧
      (∀ c, p.base.contents.getLast? = some c →
          c.charges - min (ammo_remaining p) qty = 0 →
          (ammo_consume mag p qty pos).1.base.contents = []) := by
    rcases hL : p.base.contents.getLast? with _ | c
    · have hrem : ammo_remaining p = 0 := by
        simp [ammo_remaining, hb, hr, ht, hw, hL]
      have hres : min (ammo_remaining p) qty = 0 := by
        rw [hrem]; exact min_eq_left hq
      refine ⟨?_, ?_, ?_⟩
      · simp [ammo_consume, hb, hr, hw, hL]
      · simp only [ammo_consume, hb, hr, hw, hL]
        simp [hrem, hres]
        exact hq
      · intro c hc
        exact absurd hc (by simp)
    · have hrem : ammo_remaining p = c.charges := by
        simp [ammo_remaining, hb, hr, ht, hw, hL]
      by_cases hz : c.charges - min (ammo_remaining p) qty = 0
      · have heq : ammo_consume mag p qty pos
            = (clear_contents p, min (ammo_remaining p) qty) := by
          simp [ammo_consume, hb, hr, hw, hL, hz]
        have hcc : ammo_remaining (clear_contents p) = 0 :=
          (ammo_remaining_of_contents (clear_contents p) hb hr ht hw).trans rfl
        refine ⟨by rw [heq], ?_, ?_⟩
        · simp only [heq, hcc, hrem]
          rw [hrem] at hz
          omega
        · intro c' hc' _
          simp only [heq]
          rfl
      · have heq : ammo_consume mag p qty pos
            = ({ p with base := { p.base with contents := p.base.contents.dropLast
                  ++ [{ c with charges := c.charges - min (ammo_remaining p) qty }] } },
               min (ammo_remaining p) qty) := by
          simp [ammo_consume, hb, hr, hw, hL, hz]
        have h2 : ammo_remaining ({ p with base := { p.base with contents :=
              p.base.contents.dropLast
                ++ [{ c with charges := c.charges - min (ammo_remaining p) qty }] } })
            = (match (p.base.contents.dropLast
                ++ [{ c with charges := c.charges - min (ammo_remaining p) qty }]).getLast? with
               | none => 0 | some x => x.charges) :=
          ammo_remaining_of_contents _ hb hr ht hw
        refine ⟨by rw [heq], ?_, ?_⟩
        · simp only [heq, h2]
          simp [hrem]
        · intro c' hc' hzz
          cases hc'
          exact absurd hzz hz
  refine ⟨hmain.1, ?_, hmain.2.1, ?_, hmain.2.2⟩
  · rw [hmain.1]; exact min_le_left _ _
  · intro hle
    rw [hmain.2.1, min_eq_left hle]
    omega

/-- Witness for claim C4: consuming 3 of 10 stored water charges from a
tank returns 3 and leaves 7 remaining. -/
theorem ammo_consume_tank_spec_witness :
    (ammo_consume idMag (exTank [⟨"water_clean", 10⟩]) 3 exPos).2
        = min (ammo_remaining (exTank [⟨"water_clean", 10⟩])) 3 ∧
    (ammo_consume idMag (exTank [⟨"water_clean", 10⟩]) 3 exPos).2
        ≤ ammo_remaining (exTank [⟨"water_clean", 10⟩]) ∧
    ammo_remaining (ammo_consume idMag (exTank [⟨"water_clean", 10⟩]) 3 exPos).1
        = ammo_remaining (exTank [⟨"water_clean", 10⟩])
          - min (ammo_remaining (exTank [⟨"water_clean", 10⟩])) 3 ∧
    (ammo_remaining (exTank [⟨"water_clean", 10⟩]) ≤ 3 →
      ammo_remaining (ammo_consume idMag (exTank [⟨"water_clean", 10⟩]) 3 exPos).1 = 0) ∧
    (∀ c, (exTank [⟨"water_clean", 10⟩]).base.contents.getLast? = some c →
        c.charges - min (ammo_remaining (exTank [⟨"water_clean", 10⟩])) 3 = 0 →
        (ammo_consume idMag (exTank [⟨"water_clean", 10⟩]) 3 exPos).1.base.contents = []) :=
  ammo_consume_tank_spec idMag (exTank [⟨"water_clean", 10⟩]) 3 exPos
    (by decide) (by decide) (by decide) (by decide) (by decide)

/-- Claim C10: for a turret-role part (a gun, not a battery magazine, not a
reactor, not a watertight container) ammo_consume returns
min(ammo_remaining, qty) and leaves the part entirely unchanged. -/
theorem ammo_consume_turret_frame (mag : MagOps) (p : vehicle_part) (qty : Int)
    (pos : tripoint)
    (ht : is_turret p = true) (hb : is_battery p = false) (hr : is_reactor p = false)
    (hw : p.base.is_watertight_container = false) :
    ammo_consume mag p qty pos = (p, min (ammo_remaining p) qty) := by
  unfold ammo_consume
  rw [if_neg (by simp [hb, hr]), if_neg (by simp [hw])]

/-- Witness for claim C10: consuming 10 from the example turret with 30
delegate rounds changes nothing and reports 10. -/
theorem ammo_consume_turret_frame_witness :
    ammo_consume idMag exTurret 10 exPos = (exTurret, min (ammo_remaining exTurret) 10) :=
  ammo_consume_turret_frame idMag exTurret 10 exPos
    (by decide) (by decide) (by decide) (by decide)

/-- Claim C1, counterexample: a tank-role part holding two liquid stacks;
ammo_current returns the type of the FIRST stack, not of the last-added
(back) stack as the claim states. -/
theorem ammo_current_not_last :
    is_tank (exTank [⟨"water_clean", 10⟩, ⟨"gasoline", 5⟩]) = true ∧
    is_battery (exTank [⟨"water_clean", 10⟩, ⟨"gasoline", 5⟩]) = false ∧
    is_reactor (exTank [⟨"water_clean", 10⟩, ⟨"gasoline", 5⟩]) = false ∧
    is_turret (exTank [⟨"water_clean", 10⟩, ⟨"gasoline", 5⟩]) = false ∧
    (exTank [⟨"water_clean", 10⟩, ⟨"gasoline", 5⟩]).base.contents.getLast?
      = some ⟨"gasoline", 5⟩ ∧
    ammo_current (exTank [⟨"water_clean", 10⟩, ⟨"gasoline", 5⟩]) ≠ "gasoline" := by
  decide

/-- Claim C1 (amended): for every part whose role resolves to tank under
the fixed precedence (not battery, reactor or turret; watertight container)
and whose contents list is non-empty, ammo_current returns the item-type id
of the FIRST (front) stack of the contents list, which is the last-added
stack only when the list has a single element. -/
theorem ammo_current_tank_front (p : vehicle_part) (c : content_item)
    (cs : List content_item)
    (hb : is_battery p = false) (hr : is_reactor p = false)
    (ht : is_turret p = false) (htk : is_tank p = true)
    (hc : p.base.contents = c :: cs) :
    ammo_current p = c.typeId := by
  simp [ammo_current, hb, hr, ht, htk, hc]

/-- Witness for the amended claim C1 at a concrete two-stack tank. -/
theorem ammo_current_tank_front_witness :
    ammo_current (exTank [⟨"water_clean", 10⟩, ⟨"gasoline", 5⟩]) = "water_clean" :=
  ammo_current_tank_front (exTank [⟨"water_clean", 10⟩, ⟨"gasoline", 5⟩])
    ⟨"water_clean", 10⟩ [⟨"gasoline", 5⟩] (by decide) (by decide) (by decide)
    (by decide) (by decide)

/-- Claim C2, counterexample: a valid part (damage 1 within max 2,
durability 3) whose hp is 1, while durability times health percentage
rounded to the nearest integer is 2: the source truncates the product, it
does not round it. -/
theorem hp_not_round :
    0 ≤ exDamaged.base.damage ∧
    exDamaged.base.damage ≤ exDamaged.base.max_damage ∧
    hp exDamaged ≠ round ((exDamaged.info.durability : ℚ) * health_percent exDamaged) := by
  refine ⟨by norm_num [exDamaged, tank_base], by norm_num [exDamaged, tank_base], ?_⟩
  norm_num [hp, truncInt, health_percent, exDamaged, tank_base, round_eq]

/-- Claim C2 (amended): for every valid part whose damage lies in the valid
range and whose descriptor durability is non-negative, hp equals the
durability multiplied by the health percentage (1 - damage/maxDamage)
truncated toward zero, which on this range is the floor of the product. -/
theorem hp_eq_floor (p : vehicle_part)
    (h0 : 0 ≤ p.base.damage) (h1 : p.base.damage ≤ p.base.max_damage)
    (hm : 0 < p.base.max_damage) (hd : 0 ≤ p.info.durability) :
    hp p = ⌊(p.info.durability : ℚ) * health_percent p⌋ := by
  have hh : 0 ≤ health_percent p := by
    unfold health_percent
    have : p.base.damage / p.base.max_damage ≤ 1 := by
      rw [div_le_one hm]; exact h1
    linarith
  have harg : 0 ≤ (p.info.durability : ℚ) * health_percent p := by
    apply mul_nonneg _ hh
    exact_mod_cast hd
  unfold hp truncInt
  rw [if_neg (not_lt.mpr harg)]

/-- Witness for the amended claim C2 at the concrete damaged part. -/
theorem hp_eq_floor_witness :
    hp exDamaged = ⌊(exDamaged.info.durability : ℚ) * health_percent exDamaged⌋ :=
  hp_eq_floor exDamaged (by norm_num [exDamaged, tank_base])
    (by norm_num [exDamaged, tank_base]) (by norm_num [exDamaged, tank_base])
    (by norm_num [exDamaged])

/-- Helper: truncation toward zero fixes integers. -/
theorem truncInt_intCast (n : Int) : truncInt (n : ℚ) = n := by
  unfold truncInt
  split_ifs <;> simp

/-- Helper: set_hp expressed as a single damage update with the branch
condition pushed into the stored value. -/
theorem set_hp_eq (p : vehicle_part) (qty : Int) :
    set_hp p qty = { p with base := { p.base with damage :=
      if qty = p.info.durability then 0
      else if qty = 0 then p.base.max_damage
      else p.base.max_damage
            - (qty : ℚ) * (p.base.max_damage / (p.info.durability : ℚ)) } } := by
  unfold set_hp
  split_ifs <;> rfl

/-- Claim C5: set_hp with qty equal to durability zeroes the damage; with
qty 0 it sets damage to max_damage; with any other qty the damage becomes
max_damage - qty * (max_damage / durability); and the result depends only
on qty, so applying set_hp twice with the same qty equals applying it
once. -/
theorem set_hp_spec (p : vehicle_part) (qty : Int) (hd : 0 < p.info.durability) :
    (set_hp p p.info.durability).base.damage = 0 ∧
    (set_hp p 0).base.damage = p.base.max_damage ∧
    (qty ≠ 0 → qty ≠ p.info.durability →
      (set_hp p qty).base.damage
        = p.base.max_damage - (qty : ℚ) * (p.base.max_damage / (p.info.durability : ℚ))) ∧
    set_hp (set_hp p qty) qty = set_hp p qty := by
  refine ⟨?_, ?_, ?_, ?_⟩
  · simp [set_hp]
  · rw [set_hp, if_neg (by omega), if_pos rfl]
  · intro h0 hD
    rw [set_hp, if_neg hD, if_neg h0]
  · rw [set_hp_eq p qty, set_hp_eq]

/-- Witness for claim C5 at the concrete damaged part with qty 2. -/
theorem set_hp_spec_witness :
    (set_hp exDamaged exDamaged.info.durability).base.damage = 0 ∧
    (set_hp exDamaged 0).base.damage = exDamaged.base.max_damage ∧
    ((2 : Int) ≠ 0 → (2 : Int) ≠ exDamaged.info.durability →
      (set_hp exDamaged 2).base.damage
        = exDamaged.base.max_damage
          - ((2 : Int) : ℚ) * (exDamaged.base.max_damage / (exDamaged.info.durability : ℚ))) ∧
    set_hp (set_hp exDamaged 2) 2 = set_hp exDamaged 2 :=
  set_hp_spec exDamaged 2 (by norm_num [exDamaged])

/-- Claim C9: for a part with non-zero durability and non-zero max damage,
writing the current hit points back with set_hp and re-reading hp returns
the original value within integer rounding (the round trip is in fact
exact). -/
theorem set_hp_hp_roundtrip (p : vehicle_part)
    (hd : p.info.durability ≠ 0) (hm : p.base.max_damage ≠ 0) :
    |hp (set_hp p (hp p)) - hp p| ≤ 1 := by
  have key : hp (set_hp p (hp p)) = hp p := by
    by_cases h1 : hp p = p.info.durability
    · rw [set_hp, if_pos h1]
      show truncInt ((p.info.durability : ℚ) * (1 - 0 / p.base.max_damage)) = hp p
      rw [zero_div, sub_zero, mul_one, truncInt_intCast, h1]
    · by_cases h2 : hp p = 0
      · rw [set_hp, if_neg h1, if_pos h2]
        show truncInt ((p.info.durability : ℚ)
            * (1 - p.base.max_damage / p.base.max_damage)) = hp p
        rw [div_self hm, sub_self, mul_zero]
        rw [h2]
        exact truncInt_intCast 0
      · rw [set_hp, if_neg h1, if_neg h2]
        show truncInt ((p.info.durability : ℚ)
            * (1 - (p.base.max_damage - (hp p : ℚ)
                * (p.base.max_damage / (p.info.durability : ℚ))) / p.base.max_damage)) = hp p
        have hdq : (p.info.durability : ℚ) ≠ 0 := Int.cast_ne_zero.mpr hd
        have harg : (p.info.durability : ℚ)
            * (1 - (p.base.max_damage - (hp p : ℚ)
                * (p.base.max_damage / (p.info.durability : ℚ))) / p.base.max_damage)
            = ((hp p : Int) : ℚ) := by
          field_simp
          ring
        rw [harg, truncInt_intCast]
  rw [key]
  simp

/-- Witness for claim C9 at the concrete damaged part. -/
theorem set_hp_hp_roundtrip_witness :
    |hp (set_hp exDamaged (hp exDamaged)) - hp exDamaged| ≤ 1 :=
  set_hp_hp_roundtrip exDamaged (by norm_num [exDamaged]) (by norm_num [exDamaged, tank_base])

/-- Claim C6: consume_energy returns 0 with no state change when the
contents are empty, the role is not battery/reactor/watertight, or the back
stack does not match the fuel type; otherwise it uses ceiling division of
the wanted energy by the per-unit energy, consumes everything and clears
the contents on a shortfall (returning available times per-unit energy),
and otherwise decrements the back stack and returns required times per-unit
energy. -/
theorem consume_energy_spec (cat : Catalog) (p : vehicle_part) (ftype : String)
    (energy : ℚ) :
    (p.base.contents = [] → consume_energy cat p ftype energy = (p, 0)) ∧
    ((is_battery p || is_reactor p || p.base.is_watertight_container) = false →
        consume_energy cat p ftype energy = (p, 0)) ∧
    (∀ fuel, p.base.contents.getLast? = some fuel → fuel.typeId ≠ ftype →
        consume_energy cat p ftype energy = (p, 0)) ∧
    (∀ fuel, p.base.contents.getLast? = some fuel →
        (is_battery p || is_reactor p || p.base.is_watertight_container) = true →
        fuel.typeId = ftype → 0 < (cat ftype).fuel_energy →
        ((fuel.charges < ⌈energy / (cat ftype).fuel_energy⌉ →
            consume_energy cat p ftype energy
              = (clear_contents p, (fuel.charges : ℚ) * (cat ftype).fuel_energy)) ∧
         (⌈energy / (cat ftype).fuel_energy⌉ ≤ fuel.charges →
            consume_energy cat p ftype energy
              = ({ p with base := { p.base with contents := p.base.contents.dropLast
                    ++ [{ fuel with
                          charges := fuel.charges - ⌈energy / (cat ftype).fuel_energy⌉ }] } },
                 (⌈energy / (cat ftype).fuel_energy⌉ : ℚ) * (cat ftype).fuel_energy)))) := by
  refine ⟨?_, ?_, ?_, ?_⟩
  · intro h
    simp [consume_energy, h]
  · intro hroles
    rcases hL : p.base.contents.getLast? with _ | fuel
    · simp [consume_energy, hL]
    · simp [consume_energy, hL, hroles]
  · intro fuel hL hne
    simp only [consume_energy, hL]
    split_ifs <;> rfl
  · intro fuel hL hroles hft hpos
    simp only [consume_energy, hL]
    rw [if_neg (not_not_intro hroles), if_neg (not_not_intro hft), hft]
    constructor
    · intro hlt
      rw [if_pos hlt]
    · intro hge
      rw [if_neg (not_lt.mpr hge)]

/-- Witness for claim C6: consuming 7 energy of gasoline (3.4 per unit)
from a tank with 10 charges removes 3 charges and returns 10.2. -/
theorem consume_energy_spec_witness :
    consume_energy exCat (exTank [⟨"gasoline", 10⟩]) "gasoline" 7
      = (exTank [⟨"gasoline", 7⟩], 51 / 5) := by
  have hfe : (exCat "gasoline").fuel_energy = 34 / 10 := rfl
  have hceil : ⌈(7 : ℚ) / (exCat "gasoline").fuel_energy⌉ = 3 := by
    rw [hfe, Int.ceil_eq_iff] <;> norm_num
  have h := ((consume_energy_spec exCat (exTank [⟨"gasoline", 10⟩]) "gasoline" 7).2.2.2
      ⟨"gasoline", 10⟩ rfl (by decide) rfl (by rw [hfe]; norm_num)).2
      (by rw [hceil]; norm_num)
  rw [h, hceil, hfe]
  simp only [Prod.mk.injEq]
  refine ⟨rfl, by norm_num⟩

/-- Helper: ammo_current of a non-battery/reactor/turret part with empty
contents is the engine fuel-type expression. -/
theorem ammo_current_nil (p : vehicle_part)
    (hb : is_battery p = false) (hr : is_reactor p = false)
    (ht : is_turret p = false) (hc : p.base.contents = []) :
    ammo_current p
      = (if is_engine p then
          (if p.info.fuel_type ≠ "muscle" then p.info.fuel_type else "null")
         else "null") := by
  simp [ammo_current, hb, hr, ht, hc]

/-- Helper: for a tank-role part and a concrete candidate type whose
loaded stacks never carry the null sentinel type, can_reload succeeds
exactly when the part is not broken, the capacity is positive, the
candidate is a liquid, no different liquid is already loaded, the
descriptor does not pin a different fuel type, and the remaining amount is
strictly below capacity. -/
theorem can_reload_tank_cases (cat : Catalog) (p : vehicle_part) (obj : String)
    (hb : is_battery p = false) (hr : is_reactor p = false) (ht : is_turret p = false)
    (htk : is_tank p = true) (hobj : obj ≠ "")
    (hfront : ∀ c cs, p.base.contents = c :: cs → c.typeId ≠ "null") :
    can_reload cat p obj = true ↔
      (is_broken p = false ∧ 0 < ammo_capacity cat p ∧
       (cat obj).phase = Phase.liquid ∧
       (∀ c cs, p.base.contents = c :: cs → c.typeId = obj) ∧
       (p.info.fuel_type = "null" ∨ p.info.fuel_type = obj) ∧
       ammo_remaining p < ammo_capacity cat p) := by
  by_cases hbrk : is_broken p = true
  · constructor
    · intro hcr
      rw [can_reload, if_pos (by simp [hbrk])] at hcr
      exact absurd hcr (by simp)
    · rintro ⟨hb2, -⟩
      rw [hbrk] at hb2
      exact absurd hb2 (by simp)
  · have hbrk' : is_broken p = false := by simpa using hbrk
    by_cases hcap : ammo_capacity cat p ≤ 0
    · constructor
      · intro hcr
        rw [can_reload, if_pos (by simp [hcap])] at hcr
        exact absurd hcr (by simp)
      · rintro ⟨-, hpos, -⟩
        omega
    · have hcap' : 0 < ammo_capacity cat p := by omega
      have hstep : can_reload cat p obj
          = (if obj ≠ "" ∧ (cat obj).phase ≠ Phase.liquid then false
             else if obj ≠ "" ∧ ammo_current p ≠ "null" ∧ ammo_current p ≠ obj then false
             else if p.info.fuel_type ≠ "null" ∧ p.info.fuel_type ≠ obj then false
             else decide (ammo_remaining p < ammo_capacity cat p)) := by
        rw [can_reload, if_neg (by simp [hbrk', hcap]), if_neg (by simp [hr]),
          if_pos htk]
      rw [hstep]
      by_cases hph : (cat obj).phase = Phase.liquid
      · rw [if_neg (fun hcon => hcon.2 hph)]
        have hrest : (is_broken p = false ∧ 0 < ammo_capacity cat p ∧
            (cat obj).phase = Phase.liquid ∧
            (∀ c cs, p.base.contents = c :: cs → c.typeId = obj) ∧
            (p.info.fuel_type = "null" ∨ p.info.fuel_type = obj) ∧
            ammo_remaining p < ammo_capacity cat p) ↔
            ((∀ c cs, p.base.contents = c :: cs → c.typeId = obj) ∧
             (p.info.fuel_type = "null" ∨ p.info.fuel_type = obj) ∧
             ammo_remaining p < ammo_capacity cat p) := by
          simp [hbrk', hcap', hph]
        rw [hrest]
        rcases hc : p.base.contents with _ | ⟨c, cs⟩
        · have hA : ammo_current p
              = (if is_engine p then
                  (if p.info.fuel_type ≠ "muscle" then p.info.fuel_type else "null")
                 else "null") := ammo_current_nil p hb hr ht hc
          have fact1 : (p.info.fuel_type = "null" ∨ p.info.fuel_type = obj) →
              ¬(obj ≠ "" ∧ ammo_current p ≠ "null" ∧ ammo_current p ≠ obj) := by
            intro h2 hcon
            rcases hcon with ⟨-, hAn, hAo⟩
            rw [hA] at hAn hAo
            by_cases heng : is_engine p = true
            · rw [if_pos heng] at hAn hAo
              rcases h2 with hF | hF
              · rw [hF] at hAn hAo
                simp at hAn hAo
              · by_cases hFm : p.info.fuel_type = "muscle"
                · rw [if_neg (not_not_intro hFm)] at hAn
                  exact hAn rfl
                · rw [if_pos hFm, hF] at hAo
                  exact hAo rfl
            · rw [if_neg (by simpa using heng)] at hAn
              exact hAn rfl
          constructor
          · intro hres
            split_ifs at hres with h1 h2
            have hF : p.info.fuel_type = "null" ∨ p.info.fuel_type = obj := by
              tauto
            refine ⟨?_, hF, by simpa using hres⟩
            intro c' cs' h
            exact absurd h (by simp)
          · rintro ⟨-, hCL2, hlt⟩
            rw [if_neg (fact1 hCL2), if_neg (by tauto)]
            simpa using hlt
        · have hA : ammo_current p = c.typeId :=
            ammo_current_cons p c cs hb hr ht htk hc
          have hcnull : c.typeId ≠ "null" := hfront c cs hc
          constructor
          · intro hres
            split_ifs at hres with h1 h2
            rw [hA] at h1
            have hco : c.typeId = obj := by
              by_contra hne
              exact h1 ⟨hobj, hcnull, hne⟩
            have hF : p.info.fuel_type = "null" ∨ p.info.fuel_type = obj := by
              by_contra hcon
              push_neg at hcon
              exact h2 ⟨hcon.1, hcon.2⟩
            refine ⟨?_, hF, by simpa using hres⟩
            intro c' cs' h
            cases h
            exact hco
          · rintro ⟨hCL1, hCL2, hlt⟩
            have hco : c.typeId = obj := hCL1 c cs rfl
            rw [if_neg (fun hcon => hcon.2.2 (hA.trans hco)),
              if_neg (fun hcon => hCL2.elim hcon.1 hcon.2)]
            simpa using hlt
      · rw [if_pos ⟨hobj, hph⟩]
        constructor
        · intro hres
          exact absurd hres (by simp)
        · rintro ⟨-, -, hph2, -⟩
          exact absurd hph2 hph

/-- Claim C7: can_reload returns false for EVERY part that is broken or
whose capacity is non-positive; and for a tank-role part with a concrete
candidate type (loaded stacks never carrying the null sentinel type) it
succeeds exactly when the part is not broken, the capacity is positive, the
candidate is a liquid, no different liquid is already loaded, the
descriptor does not pin a different fuel type, and the remaining amount is
strictly below capacity. -/
theorem can_reload_spec (cat : Catalog) :
    (∀ (q : vehicle_part) (o : String),
        is_broken q = true ∨ ammo_capacity cat q ≤ 0 → can_reload cat q o = false) ∧
    (∀ (p : vehicle_part) (obj : String),
        is_battery p = false → is_reactor p = false → is_turret p = false →
        is_tank p = true → obj ≠ "" →
        (∀ c cs, p.base.contents = c :: cs → c.typeId ≠ "null") →
        (can_reload cat p obj = true ↔
          (is_broken p = false ∧ 0 < ammo_capacity cat p ∧
           (cat obj).phase = Phase.liquid ∧
           (∀ c cs, p.base.contents = c :: cs → c.typeId = obj) ∧
           (p.info.fuel_type = "null" ∨ p.info.fuel_type = obj) ∧
           ammo_remaining p < ammo_capacity cat p))) := by
  constructor
  · intro q o h
    unfold can_reload
    rcases h with h | h
    · rw [if_pos (by simp [h])]
    · rw [if_pos (by simp [h])]
  · intro p obj hb hr ht htk hobj hfront
    exact can_reload_tank_cases cat p obj hb hr ht htk hobj hfront

/-- Witness for claim C7: the broken example tank rejects clean water, and
the intact empty example tank accepts it. -/
theorem can_reload_spec_witness :
    can_reload exCat exBrokenTank "water_clean" = false ∧
    can_reload exCat (exTank []) "water_clean" = true :=
  ⟨(can_reload_spec exCat).1 exBrokenTank "water_clean" (Or.inl (by decide)),
   ((can_reload_spec exCat).2 (exTank []) "water_clean" (by decide) (by decide)
       (by decide) (by decide) (by decide)
       (by intro c cs h; simp [exTank, tank_base] at h)).mpr
     ⟨by decide, by decide, by decide,
      by intro c cs h; simp [exTank, tank_base] at h,
      Or.inl (by decide), by decide⟩⟩

/-- Helper: seat_scan preserves the length of the parts list. -/
theorem seat_scan_length (reg : Registry) (who : npc) (idx : Nat) :
    ∀ (i : Nat) (l : List vehicle_part), (seat_scan reg who idx i l).length = l.length := by
  intro i l
  induction l generalizing i with
  | nil => rfl
  | cons e rest ih => simp [seat_scan, ih]

/-- Helper: element j of the scanned list is the original element, kept as
is at the skipped index and passed through the loop body elsewhere. -/
theorem seat_scan_get (reg : Registry) (who : npc) (idx : Nat) :
    ∀ (i j : Nat) (l : List vehicle_part),
      (seat_scan reg who idx i l).get? j
        = (l.get? j).map (fun e => if i + j = idx then e else seat_scan_step reg who e) := by
  intro i j l
  induction l generalizing i j with
  | nil => rfl
  | cons e rest ih =>
    cases j with
    | zero => simp [seat_scan]
    | succ j' =>
      show (seat_scan reg who idx (i + 1) rest).get? j' = _
      rw [ih (i + 1) j']
      have h : i + 1 + j' = i + (j' + 1) := by omega
      rw [h]
      rfl

/-- Helper: the loop body either keeps a part or merely unassigns its
crew. -/
theorem seat_scan_step_cases (reg : Registry) (who : npc) (e : vehicle_part) :
    seat_scan_step reg who e = e ∨ seat_scan_step reg who e = unset_crew e := by
  unfold seat_scan_step
  split_ifs with h
  · rcases crew reg e with _ | n
    · exact Or.inl rfl
    · by_cases h2 : n.getID = who.getID
      · simp [h2]
      · simp [h2]
  · exact Or.inl rfl

/-- Helper: set_crew succeeds on a live friendly NPC and an unbroken seat,
recording the NPC id. -/
theorem set_crew_success (p : vehicle_part) (who : npc)
    (hwd : who.is_dead_state = false) (hwf : who.is_friend = true)
    (hbk : is_broken p = false) (hseat : is_seat p = true) :
    set_crew p who = ({ p with crew_id := who.getID }, true) := by
  unfold set_crew
  rw [if_neg (by simp [hwd, hwf]), if_neg (by simp [hbk, hseat])]

/-- Helper: an unassigned part never reports a crew member. -/
theorem crew_unset (reg : Registry) (e : vehicle_part) :
    crew reg (unset_crew e) = none := by
  simp [crew, unset_crew]

/-- Helper: crew resolves the stored id through the registry when the part
is unbroken, the id non-negative and the NPC friendly. -/
theorem crew_of_id (reg : Registry) (p : vehicle_part) (who : npc)
    (hbk : is_broken p = false) (hid2 : p.crew_id = who.getID) (h0 : 0 ≤ who.getID)
    (hreg : reg who.getID = some who) (hf : who.is_friend = true) :
    crew reg p = some who := by
  have hnl : ¬ p.crew_id < 0 := by rw [hid2]; omega
  simp [crew, hbk, hid2, hreg, hf, hnl]
  exact h0

/-- Helper: a successful assign_seat rewrites to the scan of the list with
the assigned part updated. -/
theorem assign_seat_success (reg : Registry) (v : List vehicle_part) (idx : Nat)
    (who : npc) (pt pt2 : vehicle_part)
    (hget : v.get? idx = some pt) (hseat : is_seat pt = true)
    (hsc : set_crew pt who = (pt2, true)) :
    assign_seat reg v idx who = (seat_scan reg who idx 0 (v.set idx pt2), true) := by
  simp only [assign_seat, hget]
  rw [if_neg (by simp [hseat]), hsc]

/-- Claim C8: assigning an NPC to seat a and then to a different seat b of
the same vehicle leaves seat a with no crew and seat b crewed by that NPC
(an NPC occupies at most one seat per vehicle); and assign_seat returns
false with no state change when the part is not a seat or set_crew
fails. -/
theorem assign_seat_single_seat (reg : Registry) (v : List vehicle_part) (a b : Nat)
    (who : npc) (pa pb : vehicle_part)
    (hab : a ≠ b)
    (hpa : v.get? a = some pa) (hpb : v.get? b = some pb)
    (hsa : is_seat pa = true) (hsb : is_seat pb = true)
    (hba : is_broken pa = false) (hbb : is_broken pb = false)
    (hwd : who.is_dead_state = false) (hwf : who.is_friend = true)
    (hid : 0 ≤ who.getID) (hreg : reg who.getID = some who) :
    (∀ pa2, ((assign_seat reg (assign_seat reg v a who).1 b who).1).get? a = some pa2 →
        crew reg pa2 = none) ∧
    (∀ pb2, ((assign_seat reg (assign_seat reg v a who).1 b who).1).get? b = some pb2 →
        crew reg pb2 = some who) ∧
    (∀ (i : Nat) (q : vehicle_part), v.get? i = some q →
        is_seat q = false ∨ (set_crew q who).2 = false →
        assign_seat reg v i who = (v, false)) := by
  have ha : a < v.length := by
    by_contra hlen
    rw [List.get?_eq_none.mpr (le_of_not_lt hlen)] at hpa
    exact Option.noConfusion hpa
  have hb : b < v.length := by
    by_contra hlen
    rw [List.get?_eq_none.mpr (le_of_not_lt hlen)] at hpb
    exact Option.noConfusion hpb
  have hsc_a : set_crew pa who = ({ pa with crew_id := who.getID }, true) :=
    set_crew_success pa who hwd hwf hba hsa
  have h1 : assign_seat reg v a who
      = (seat_scan reg who a 0 (v.set a { pa with crew_id := who.getID }), true) :=
    assign_seat_success reg v a who pa _ hpa hsa hsc_a
  have hlen1 : (seat_scan reg who a 0 (v.set a { pa with crew_id := who.getID })).length
      = v.length := by
    rw [seat_scan_length, List.length_set]
  have hv1a : (seat_scan reg who a 0 (v.set a { pa with crew_id := who.getID })).get? a
      = some { pa with crew_id := who.getID } := by
    rw [seat_scan_get, List.get?_set_eq_of_lt _ ha]
    simp
  have hv1b : (seat_scan reg who a 0 (v.set a { pa with crew_id := who.getID })).get? b
      = some (seat_scan_step reg who pb) := by
    rw [seat_scan_get, List.get?_set_ne _ _ hab, hpb]
    simp [Ne.symm hab]
  have hsb1 : is_seat (seat_scan_step reg who pb) = true := by
    rcases seat_scan_step_cases reg who pb with h | h <;> rw [h] <;> exact hsb
  have hbb1 : is_broken (seat_scan_step reg who pb) = false := by
    rcases seat_scan_step_cases reg who pb with h | h <;> rw [h] <;> exact hbb
  have hsc_b : set_crew (seat_scan_step reg who pb) who
      = ({ seat_scan_step reg who pb with crew_id := who.getID }, true) :=
    set_crew_success _ who hwd hwf hbb1 hsb1
  have h2 : assign_seat reg
        (seat_scan reg who a 0 (v.set a { pa with crew_id := who.getID })) b who
      = (seat_scan reg who b 0
          ((seat_scan reg who a 0 (v.set a { pa with crew_id := who.getID })).set b
            { seat_scan_step reg who pb with crew_id := who.getID }), true) :=
    assign_seat_success reg _ b who _ _ hv1b hsb1 hsc_b
  have hcrew_a : crew reg { pa with crew_id := who.getID } = some who :=
    crew_of_id reg _ who hba rfl hid hreg hwf
  have hstep_a : seat_scan_step reg who { pa with crew_id := who.getID }
      = unset_crew { pa with crew_id := who.getID } := by
    unfold seat_scan_step
    rw [if_pos (show is_seat { pa with crew_id := who.getID } = true from hsa), hcrew_a]
    simp
  refine ⟨?_, ?_, ?_⟩
  · intro pa2 hget2
    simp only [h1, h2] at hget2
    rw [seat_scan_get, List.get?_set_ne _ _ (Ne.symm hab), hv1a] at hget2
    simp only [Option.map_some', Nat.zero_add, Option.some.injEq] at hget2
    rw [if_neg hab, hstep_a] at hget2
    rw [← hget2]
    exact crew_unset reg _
  · intro pb2 hget2
    simp only [h1, h2] at hget2
    rw [seat_scan_get,
      List.get?_set_eq_of_lt _ (by rw [hlen1]; exact hb)] at hget2
    simp only [Option.map_some', Nat.zero_add, if_true, Option.some.injEq] at hget2
    rw [← hget2]
    exact crew_of_id reg _ who hbb1 rfl hid hreg hwf
  · intro i q hq hfail
    rcases Bool.eq_false_or_eq_true (is_seat q) with hs | hs
    · rcases hfail with hf1 | hf2
      · rw [hs] at hf1
        exact absurd hf1 (by simp)
      · simp only [assign_seat, hq]
        rw [if_neg (by simp [hs])]
        rcases hsc2 : set_crew q who with ⟨q2, ok⟩
        cases ok
        · rfl
        · rw [hsc2] at hf2
          simp at hf2
    · simp only [assign_seat, hq]
      rw [if_pos (by simp [hs])]

/-- Witness for claim C8 on a two-seat vehicle with the example NPC. -/
theorem assign_seat_single_seat_witness :
    (∀ pa2, ((assign_seat exReg (assign_seat exReg [exSeat, exSeat] 0 exNpc).1 1
        exNpc).1).get? 0 = some pa2 → crew exReg pa2 = none) ∧
    (∀ pb2, ((assign_seat exReg (assign_seat exReg [exSeat, exSeat] 0 exNpc).1 1
        exNpc).1).get? 1 = some pb2 → crew exReg pb2 = some exNpc) ∧
    (∀ (i : Nat) (q : vehicle_part), [exSeat, exSeat].get? i = some q →
        is_seat q = false ∨ (set_crew q exNpc).2 = false →
        assign_seat exReg [exSeat, exSeat] i exNpc = ([exSeat, exSeat], false)) :=
  assign_seat_single_seat exReg [exSeat, exSeat] 0 1 exNpc exSeat exSeat
    (by decide) rfl rfl (by decide) (by decide) (by decide) (by decide)
    (by decide) (by decide) (by decide) rfl

end Veh
